/-
Verification of the invoice analysis pipeline (ai_segments.py).

The pipeline is embedded shallowly: the working DataFrame is a list of
named columns of cells, pandas null/NaN is `Cell.null`, numeric values are
ℚ, parsed dates are ℤ ordinals.  Pandas semantics relevant here: a
comparison against NaN yields False, `duplicated` treats NaN keys as
equal, a missing column raises KeyError, comparing a string cell with a
number raises TypeError.  The sklearn IsolationForest call and the pandas
date parser are external library code; they are modelled from the spec
where noted.
-/
import Mathlib

/-- One value of the working table: pandas NaN/NaT is `null`, strings,
numerics (ℚ), parsed dates (ℤ ordinal), and booleans. -/
inductive Cell where
  | null : Cell
  | str (s : String) : Cell
  | num (q : ℚ) : Cell
  | date (d : ℤ) : Cell
  | bool (b : Bool) : Cell
  deriving DecidableEq, Repr

/-- The working DataFrame: ordered named columns of cells. -/
abbrev Table := List (String × List Cell)

/-- Column lookup, first occurrence wins (columns are deduplicated early). -/
def getCol (t : Table) (n : String) : Option (List Cell) :=
  (t.find? (fun c => c.1 == n)).map Prod.snd

/-- Column access as pandas does it: a missing column raises KeyError. -/
def getColE (t : Table) (n : String) : Except String (List Cell) :=
  match getCol t n with
  | some v => Except.ok v
  | none => Except.error ("KeyError: " ++ n)

/-- Assignment `df[n] = vals`: replace the column if present, else append it. -/
def setCol (t : Table) (n : String) (vals : List Cell) : Table :=
  if t.any (fun c => c.1 == n) then
    t.map (fun c => if c.1 == n then (n, vals) else c)
  else
    t ++ [(n, vals)]

def colNames (t : Table) : List String := t.map Prod.fst

/-- ASCII lowercasing, as Python `str.lower` behaves on the ASCII column
names involved here. -/
def lowerChar (c : Char) : Char :=
  if 65 ≤ c.toNat ∧ c.toNat ≤ 90 then Char.ofNat (c.toNat + 32) else c

def pyLower (s : String) : String := ⟨s.data.map lowerChar⟩

/-- The alias catalog `COLUMN_MAP` of ai_segments.py, in declaration
order. -/
def COLUMN_MAP : List (String × List String) :=
  [ ("id_invoice", ["invoice_id", "invoice_no", "inv_id", "bill_no"]),
    ("client", ["vendor", "supplier", "client_name", "customer"]),
    ("total", ["amount", "total_amount", "invoice_value", "bill_amount"]),
    ("tax", ["tax", "gst", "vat", "tax_amount"]),
    ("issuedDate", ["invoice_date", "bill_date", "issued_date"]),
    ("dueDate", ["due_date", "payment_due", "pay_date"]) ]

/-- Function `auto_map_columns`: for each canonical field, the first source column
whose lowercased name is in the field's alias list; fields with no match
stay unmapped (`none`). -/
def auto_map_columns (cols : List String) : List (String × Option String) :=
  COLUMN_MAP.map (fun p => (p.1, cols.find? (fun c => p.2.contains (pyLower c))))

/-- The source column a proposal assigns to a canonical field, if any. -/
def mappedTo (res : List (String × Option String)) (field : String) : Option String :=
  (res.lookup field).join

/-- Python `abs` on a rational, in executable form (equal to Mathlib's
`|q|`, see `absQ_eq_abs`). -/
def absQ (q : ℚ) : ℚ := if q < 0 then -q else q

/-- The validation agent (lines 103-107) as a per-record function on the
`total` and `tax` cells (`none` is pandas NaN).  `is_valid` starts True;
it is set False where `total <= 0` holds and where
`abs(tax - total*0.18) > 100` holds; a comparison against NaN is False. -/
def is_valid (total tax : Option ℚ) : Bool :=
  let invalidTotal : Bool :=
    match total with
    | none => false
    | some t => decide (t ≤ 0)
  let invalidTax : Bool :=
    match total, tax with
    | some t, some x => decide (100 < absQ (x - t * (18 / 100)))
    | _, _ => false
  !invalidTotal && !invalidTax

/-- Pandas `df.duplicated(subset=..., keep=False)`: a row is flagged iff its key
occurs at least twice in the whole column of keys. -/
def duplicate_flags {α : Type} [DecidableEq α] (keys : List α) : List Bool :=
  keys.map (fun k => decide (2 ≤ keys.count k))

/-- The confirmed mapping returned by the selectboxes: one source column
per canonical field (always a column of the raw table). -/
structure FieldMap where
  id_invoice : String
  client : String
  total : String
  tax : String
  issuedDate : String
  dueDate : String
  deriving DecidableEq, Repr

/-- The rename dictionary literal of lines 75-82.  A Python dict literal
keeps the LAST value for a repeated key, so when two canonical fields
share a source column the later field wins; the checks below therefore
run in reverse declaration order. -/
def renameLookup (um : FieldMap) (c : String) : String :=
  if c == um.dueDate then "dueDate"
  else if c == um.issuedDate then "issuedDate"
  else if c == um.tax then "tax"
  else if c == um.total then "total"
  else if c == um.client then "client"
  else if c == um.id_invoice then "id_invoice"
  else c

def renameCols (um : FieldMap) (t : Table) : Table :=
  t.map (fun c => (renameLookup um c.1, c.2))

/-- Pandas `df.loc[:, ~df.columns.duplicated()]`: keep the first column of each
name, drop later ones (the accumulator holds the names already seen). -/
def dedupeColsAux (seen : List String) : Table → Table
  | [] => []
  | c :: rest =>
    if seen.contains c.1 then dedupeColsAux seen rest
    else c :: dedupeColsAux (c.1 :: seen) rest

def dedupeCols (t : Table) : Table := dedupeColsAux [] t

/-- Pandas `df.dropna(axis=1, how='all')`: drop every column all of whose cells
are null (vacuously, zero-row columns too). -/
def dropAllNull (t : Table) : Table :=
  t.filter (fun c => !(c.2.all (fun v => v == Cell.null)))

/-- Modelled from the spec: pandas `pd.to_datetime(..., errors="coerce")`
is external library code; the spec asks for lenient parsing where an
unparseable value becomes null.  The model recognises ISO `YYYY-MM-DD`
strings and encodes the date as the ordinal `y*372 + (m-1)*31 + (d-1)`
(the encoding only needs to be monotone-injective; no claim depends on
the concrete day arithmetic). -/
def digitVal (c : Char) : Option ℕ :=
  if c.isDigit then some (c.toNat - 48) else none

def parseISO (s : String) : Option ℤ :=
  match s.data with
  | [y1, y2, y3, y4, h1, m1, m2, h2, d1, d2] =>
    match digitVal y1, digitVal y2, digitVal y3, digitVal y4,
        digitVal m1, digitVal m2, digitVal d1, digitVal d2 with
    | some a, some b, some c, some d, some e, some f, some g, some i =>
      if h1 = '-' ∧ h2 = '-' ∧ 1 ≤ 10 * e + f ∧ 10 * e + f ≤ 12 ∧
          1 ≤ 10 * g + i ∧ 10 * g + i ≤ 31 then
        some (((1000 * a + 100 * b + 10 * c + d) * 372 +
          (10 * e + f - 1) * 31 + (10 * g + i - 1) : ℕ) : ℤ)
      else none
    | _, _, _, _, _, _, _, _ => none
  | _ => none

def parseDateCell (v : Cell) : Cell :=
  match v with
  | Cell.str s =>
    match parseISO s with
    | some d => Cell.date d
    | none => Cell.null
  | Cell.date d => Cell.date d
  | _ => Cell.null

/-- Lines 94-98: the two date columns are parsed in place when present. -/
def parseDates (t : Table) : Table :=
  t.map (fun c =>
    if c.1 == "issuedDate" ∨ c.1 == "dueDate" then (c.1, c.2.map parseDateCell)
    else c)

/-- The normalization block, lines 75-98, in code order: rename with the
confirmed mapping, drop duplicate column names, drop all-null columns,
then parse the date columns.  Note the all-null drop runs BEFORE date
parsing. -/
def normalizeTable (um : FieldMap) (t : Table) : Table :=
  parseDates (dropAllNull (dedupeCols (renameCols um t)))

/-- The payment scheduling agent (lines 130-140) as a per-record
function.  `days_to_due` is `none` when `dueDate` is NaT (NaN ≤ 7 is
False in pandas); `anomaly` and `duplicate_flag` are the 0/1 integer
columns the earlier stages produced. -/
def payment_priority (days_to_due : Option ℤ) (anomaly duplicate_flag : ℕ)
    (is_valid_rec : Bool) : String :=
  let daysLe : Bool :=
    match days_to_due with
    | none => false
    | some d => decide (d ≤ 7)
  if daysLe && (anomaly == 0) && (duplicate_flag == 0) && is_valid_rec then
    "HIGH"
  else
    "HOLD"

/-- Modelled from the spec: the anomaly detector is the sklearn
IsolationForest call (external library code); the spec prescribes a
seeded ensemble of isolation trees over the single feature `total`.
All randomness comes from this 64-bit linear congruential generator. -/
def lcg (s : ℕ) : ℕ :=
  (6364136223846793005 * s + 1442695040888963407) % 18446744073709551616

/-- Draw a value below `m` (0 when `m = 0`), returning the new state. -/
def randBelow (s m : ℕ) : ℕ × ℕ :=
  (lcg s, if m = 0 then 0 else lcg s % m)

/-- An isolation tree: leaves remember how many sample points they hold. -/
inductive ITree where
  | leaf (size : ℕ) : ITree
  | node (split : ℚ) (lo hi : ITree) : ITree
  deriving Repr

def listMin (xs : List ℚ) : ℚ := xs.foldl min (xs.headD 0)

def listMax (xs : List ℚ) : ℚ := xs.foldl max (xs.headD 0)

/-- Build one isolation tree on a sub-sample: recursively pick a random
split inside the observed range until a singleton, a constant sample, or
the height limit (the fuel) is reached. -/
def buildTree (fuel : ℕ) (s : ℕ) (xs : List ℚ) : ℕ × ITree :=
  match fuel with
  | 0 => (s, ITree.leaf xs.length)
  | fuel + 1 =>
    if xs.length ≤ 1 then (s, ITree.leaf xs.length)
    else
      let lo := listMin xs
      let hi := listMax xs
      if lo = hi then (s, ITree.leaf xs.length)
      else
        let r := randBelow s 1048576
        let split := lo + (hi - lo) * (r.2 : ℚ) / 1048576
        let left := xs.filter (fun x => decide (x < split))
        let right := xs.filter (fun x => !(decide (x < split)))
        let bl := buildTree fuel r.1 left
        let br := buildTree fuel bl.1 right
        (br.1, ITree.node split bl.2 br.2)

/-- Harmonic number `H k` over ℚ. -/
def harmonicQ (k : ℕ) : ℚ :=
  (List.range k).foldl (fun a i => a + 1 / ((i : ℚ) + 1)) 0

/-- Average path-length adjustment `c(m) = 2 H(m-1) - 2 (m-1)/m` for a
leaf still holding `m` points. -/
def cFactor (m : ℕ) : ℚ :=
  if m ≤ 1 then 0
  else 2 * harmonicQ (m - 1) - 2 * ((m : ℚ) - 1) / (m : ℚ)

/-- Isolation depth of the value `x` in one tree. -/
def pathLen (t : ITree) (x : ℚ) (depth : ℚ) : ℚ :=
  match t with
  | ITree.leaf m => depth + cFactor m
  | ITree.node split lo hi =>
    if x < split then pathLen lo x (depth + 1) else pathLen hi x (depth + 1)

/-- Bootstrap sub-sample of size `k` drawn with replacement. -/
def subsample (s : ℕ) (xs : List ℚ) (k : ℕ) : ℕ × List ℚ :=
  match k with
  | 0 => (s, [])
  | k + 1 =>
    let r := randBelow s xs.length
    let rest := subsample r.1 xs k
    (rest.1, xs.getD r.2 0 :: rest.2)

/-- Build `count` isolation trees, threading the generator state. -/
def buildForest (s : ℕ) (xs : List ℚ) (count : ℕ) : List ITree :=
  match count with
  | 0 => []
  | count + 1 =>
    let psi := min 256 xs.length
    let smp := subsample s xs psi
    let tr := buildTree (Nat.log2 psi + 1) smp.1 smp.2
    tr.2 :: buildForest tr.1 xs count

/-- Anomaly scores: the negated average isolation depth across 100 trees,
a strictly decreasing transform of the spec's `2^(-avg/c(psi))` score, so
it induces the same descending ranking. -/
def isoScores (seed : ℕ) (amounts : List ℚ) : List ℚ :=
  let forest := buildForest seed amounts 100
  amounts.map (fun x =>
    -(forest.foldl (fun a t => a + pathLen t x 0) 0) / 100)

/-- The descending ranking order on (score, position) pairs: higher score
first, ties broken by smaller original position. -/
def scoreOrd (a b : ℚ × ℕ) : Prop :=
  b.1 < a.1 ∨ (a.1 = b.1 ∧ a.2 ≤ b.2)

instance : DecidableRel scoreOrd := fun a b => by
  unfold scoreOrd
  infer_instance

/-- The positions sorted by `scoreOrd` on their scores. -/
def rankedIdx (scores : List ℚ) : List ℕ :=
  ((scores.enum.map (fun p => (p.2, p.1))).insertionSort scoreOrd).map Prod.snd

/-- Rank positions by score descending, ties broken by original input
order, and flag the top `k`. -/
def rankFlags (scores : List ℚ) (k : ℕ) : List Bool :=
  (List.range scores.length).map (fun i => decide (i ∈ (rankedIdx scores).take k))

/-- Modelled from the spec: `scoreAnomalies(amounts, contamination,
seed)` — for `n ≤ 1` no record is flagged; otherwise the top
`round(contamination * n)` records by anomaly score are flagged. -/
def scoreAnomalies (amounts : List ℚ) (contamination : ℚ) (seed : ℕ) : List Bool :=
  if amounts.length ≤ 1 then List.replicate amounts.length false
  else
    rankFlags (isoScores seed amounts)
      (round (contamination * (amounts.length : ℚ))).toNat

/-- A cell read as a number the way pandas comparisons/arithmetic treat
it: NaN stays NaN (`none`), numbers are themselves, booleans are 0/1, and
a string or datetime cell in an arithmetic comparison raises TypeError. -/
def cellNumVal : Cell → Except String (Option ℚ)
  | Cell.null => Except.ok none
  | Cell.num q => Except.ok (some q)
  | Cell.bool b => Except.ok (some (if b then 1 else 0))
  | Cell.str _ => Except.error "TypeError"
  | Cell.date _ => Except.error "TypeError"

/-- The validation agent, lines 103-107, over the whole table: reads
`total` (KeyError if absent, TypeError if non-numeric), then `tax`, and
writes the boolean `is_valid` column via the per-record rule. -/
def validationStage (t : Table) : Except String Table := do
  let tot ← getColE t "total"
  let totV ← tot.mapM cellNumVal
  let tax ← getColE t "tax"
  let taxV ← tax.mapM cellNumVal
  let isv := (totV.zip taxV).map (fun p => Cell.bool (is_valid p.1 p.2))
  pure (setCol t "is_valid" isv)

/-- Casting `df["client"].astype(str)` cell by cell (NaN prints as "nan").  The
encoded values feed only the inert `vendor_enc` column, which no later
stage reads. -/
def cellStr : Cell → String
  | Cell.null => "nan"
  | Cell.str s => s
  | Cell.num q => toString q
  | Cell.date d => toString d
  | Cell.bool b => toString b

/-- sklearn `LabelEncoder.fit_transform`: each value's index in the
sorted list of distinct values. -/
def labelEncode (xs : List Cell) : List Cell :=
  let strs := xs.map cellStr
  let uniq := strs.dedup.insertionSort (fun a b => a ≤ b)
  strs.map (fun s => Cell.num ((uniq.indexOf s : ℕ) : ℚ))

/-- The duplicate detection agent, lines 112-118: encode the client
column (KeyError if absent), then flag rows sharing the composite
`(client, id_invoice, total)` key, first occurrences included, storing
0/1 integers.  `duplicated` treats NaN key fields as equal, which the
`Cell.null = Cell.null` equality of the model mirrors. -/
def duplicateStage (t : Table) : Except String Table := do
  let cl ← getColE t "client"
  let t1 := setCol t "vendor_enc" (labelEncode cl)
  let cl1 ← getColE t1 "client"
  let inv ← getColE t1 "id_invoice"
  let tot ← getColE t1 "total"
  let keys := cl1.zip (inv.zip tot)
  pure (setCol t1 "duplicate_flag"
    ((duplicate_flags keys).map (fun b => Cell.num (if b then 1 else 0))))

/-- The anomaly detection agent, lines 123-125: the model is fit on the
single `total` column (KeyError if absent; sklearn raises ValueError on
NaN or non-numeric input), and the -1/1 predictions are remapped to 1/0
integers. -/
def cellAmount : Cell → Except String ℚ
  | Cell.num q => Except.ok q
  | _ => Except.error "ValueError"

def anomalyStage (contamination : ℚ) (seed : ℕ) (t : Table) : Except String Table := do
  let tot ← getColE t "total"
  let amounts ← tot.mapM cellAmount
  let flags := scoreAnomalies amounts contamination seed
  pure (setCol t "anomaly" (flags.map (fun b => Cell.num (if b then 1 else 0))))

/-- Column `(df["dueDate"] - today).dt.days`: days until the due date, NaT
giving NaN; `today` is the current day's ordinal. -/
def daysToDueCell (today : ℤ) : Cell → Cell
  | Cell.date d => Cell.num ((d - today : ℤ) : ℚ)
  | _ => Cell.null

def cellLeQ (c : Cell) (b : ℚ) : Bool :=
  match c with
  | Cell.num q => decide (q ≤ b)
  | _ => false

def cellEqQ (c : Cell) (b : ℚ) : Bool :=
  match c with
  | Cell.num q => decide (q = b)
  | Cell.bool v => decide ((if v then (1 : ℚ) else 0) = b)
  | _ => false

def cellIsTrue : Cell → Bool
  | Cell.bool b => b
  | _ => false

/-- The payment scheduling agent, lines 130-140, over the whole table:
compute `days_to_due` from `dueDate` (KeyError if absent), then the
`np.where` conjunction writing "HIGH"/"HOLD". -/
def scheduleStage (today : ℤ) (t : Table) : Except String Table := do
  let due ← getColE t "dueDate"
  let t1 := setCol t "days_to_due" (due.map (daysToDueCell today))
  let days ← getColE t1 "days_to_due"
  let anom ← getColE t1 "anomaly"
  let dup ← getColE t1 "duplicate_flag"
  let isv ← getColE t1 "is_valid"
  let rows := days.zip (anom.zip (dup.zip isv))
  let prio := rows.map (fun r =>
    if cellLeQ r.1 7 && cellEqQ r.2.1 0 && cellEqQ r.2.2.1 0 && cellIsTrue r.2.2.2
    then Cell.str "HIGH" else Cell.str "HOLD")
  pure (setCol t1 "payment_priority" prio)

/-- The orchestrated run of lines 75-140 over one uploaded batch. -/
def pipeline (um : FieldMap) (contamination : ℚ) (seed : ℕ) (today : ℤ)
    (raw : Table) : Except String Table := do
  let t1 := normalizeTable um raw
  let t2 ← validationStage t1
  let t3 ← duplicateStage t2
  let t4 ← anomalyStage contamination seed t3
  scheduleStage today t4

/-- The app's fixed configuration: contamination 0.1, random_state 42. -/
def runApp (um : FieldMap) (today : ℤ) (raw : Table) : Except String Table :=
  pipeline um (1 / 10) 42 today raw

theorem absQ_eq_abs (q : ℚ) : absQ q = |q| := by
  unfold absQ
  split
  · exact (abs_of_neg (by assumption)).symm
  · exact (abs_of_nonneg (not_lt.mp (by assumption))).symm

theorem hold_ne_high : ("HOLD" : String) ≠ "HIGH" := by decide

/-- C1: paymentPriority is HIGH exactly when daysToDue is a non-null
value ≤ 7, the anomaly and duplicate flags are 0, and isValid holds; a
null daysToDue never yields HIGH; and the only other output is HOLD. -/
theorem priority_conjunction :
    (∀ (d : Option ℤ) (a dp : ℕ) (v : Bool),
      payment_priority d a dp v = "HIGH" ↔
        ((∃ k, d = some k ∧ k ≤ 7) ∧ a = 0 ∧ dp = 0 ∧ v = true)) ∧
    (∀ (a dp : ℕ) (v : Bool), payment_priority none a dp v = "HOLD") ∧
    (∀ (d : Option ℤ) (a dp : ℕ) (v : Bool),
      payment_priority d a dp v = "HIGH" ∨ payment_priority d a dp v = "HOLD") := by
  refine ⟨?_, ?_, ?_⟩
  · intro d a dp v
    cases d with
    | none => simp [payment_priority, hold_ne_high]
    | some k =>
      by_cases hk : k ≤ 7
      · by_cases ha : a = 0
        · by_cases hdp : dp = 0
          · cases v <;> simp [payment_priority, hk, ha, hdp, hold_ne_high]
          · simp [payment_priority, hk, ha, hdp, hold_ne_high]
        · simp [payment_priority, hk, ha, hold_ne_high]
      · simp [payment_priority, hk, hold_ne_high]
  · intro a dp v
    simp [payment_priority]
  · intro d a dp v
    cases d <;> (unfold payment_priority; dsimp only; split <;> simp)

/-- C5: for numeric totals and taxes, validity is exactly
`0 < total ∧ |tax - total*0.18| ≤ 100`, with the stated boundary
behavior. -/
theorem validation_boundary :
    (∀ t x : ℚ, is_valid (some t) (some x) = true ↔
      0 < t ∧ |x - t * (18 / 100)| ≤ 100) ∧
    (∀ x : ℚ, is_valid (some 0) (some x) = false) ∧
    (∀ t : ℚ, 0 < t → is_valid (some t) (some (t * (18 / 100) + 100)) = true) ∧
    (∀ t : ℚ, 0 < t →
      is_valid (some t) (some (t * (18 / 100) + 100 + 1 / 100)) = false) := by
  refine ⟨?_, ?_, ?_, ?_⟩
  · intro t x
    unfold is_valid
    simp only [absQ_eq_abs, Bool.and_eq_true, Bool.not_eq_true',
      decide_eq_false_iff_not, not_le, not_lt]
  · intro x
    have e1 : decide ((0 : ℚ) ≤ 0) = true := decide_eq_true (le_refl 0)
    unfold is_valid
    simp only [e1, Bool.not_true, Bool.false_and]
  · intro t ht
    have e1 : decide (t ≤ 0) = false := decide_eq_false (not_le.mpr ht)
    have h2 : t * (18 / 100) + 100 - t * (18 / 100) = 100 := by ring
    have e2 : decide (100 < absQ (t * (18 / 100) + 100 - t * (18 / 100))) = false := by
      refine decide_eq_false ?_
      rw [h2, absQ_eq_abs]
      norm_num
    unfold is_valid
    simp only [e1, e2, Bool.not_false, Bool.and_self]
  · intro t ht
    have e1 : decide (t ≤ 0) = false := decide_eq_false (not_le.mpr ht)
    have h2 : t * (18 / 100) + 100 + 1 / 100 - t * (18 / 100) = 100 + 1 / 100 := by
      ring
    have e2 : decide
        (100 < absQ (t * (18 / 100) + 100 + 1 / 100 - t * (18 / 100))) = true := by
      refine decide_eq_true ?_
      rw [h2, absQ_eq_abs, abs_of_nonneg (by norm_num : (0 : ℚ) ≤ 100 + 1 / 100)]
      norm_num
    unfold is_valid
    simp only [e1, e2, Bool.not_false, Bool.not_true, Bool.and_false]

/-- Witness for `validation_boundary` at total = 1. -/
theorem validation_boundary_witness :
    (0 : ℚ) < 1 ∧
    is_valid (some 1) (some (1 * (18 / 100) + 100)) = true ∧
    is_valid (some 1) (some (1 * (18 / 100) + 100 + 1 / 100)) = false :=
  ⟨by norm_num, validation_boundary.2.2.1 1 (by norm_num),
    validation_boundary.2.2.2 1 (by norm_num)⟩

/-- Counterexample to C2: a record with null total and null tax is marked
VALID by the code (NaN comparisons are False, so neither invalidating
rule fires), not invalid as claimed. -/
theorem null_record_marked_valid : is_valid none none = true := rfl

/-- C2 as amended: a null-total record is never invalidated; a null-tax
record is invalidated only by the `total ≤ 0` rule; and a non-numeric
total raises TypeError (aborting the batch) while a null total aborts it
later at the anomaly stage with ValueError. -/
theorem null_amount_validation :
    (∀ tax : Option ℚ, is_valid none tax = true) ∧
    (∀ t : ℚ, 0 < t → is_valid (some t) none = true) ∧
    (∀ t : ℚ, t ≤ 0 → is_valid (some t) none = false) ∧
    validationStage [("total", [Cell.str "abc"]), ("tax", [Cell.num 0])] =
      Except.error "TypeError" ∧
    anomalyStage (1 / 10) 42 [("total", [Cell.null])] =
      Except.error "ValueError" := by
  refine ⟨?_, ?_, ?_, rfl, rfl⟩
  · intro tax
    cases tax <;> rfl
  · intro t ht
    have e1 : decide (t ≤ 0) = false := decide_eq_false (not_le.mpr ht)
    unfold is_valid
    simp only [e1, Bool.not_false, Bool.and_self]
  · intro t ht
    have e1 : decide (t ≤ 0) = true := decide_eq_true ht
    unfold is_valid
    simp only [e1, Bool.not_true, Bool.false_and]

/-- Witness for `null_amount_validation` at total = 5 and total = -3. -/
theorem null_amount_validation_witness :
    (0 : ℚ) < 5 ∧ (-3 : ℚ) ≤ 0 ∧
    is_valid (some 5) none = true ∧ is_valid (some (-3)) none = false :=
  ⟨by norm_num, by norm_num, null_amount_validation.2.1 5 (by norm_num),
    null_amount_validation.2.2.1 (-3) (by norm_num)⟩

/-- Counterexample to C6: on the spec's own column list, `id_invoice` is
NOT mapped to "Invoice No" — "invoice no" (space) is not the alias
"invoice_no" (underscore), and there is no canonical-name fallback. -/
theorem mapping_stability_fails :
    mappedTo (auto_map_columns
      ["Invoice No", "Vendor", "Amount", "GST", "Bill Date", "Due Date"])
      "id_invoice" ≠ some "Invoice No" := by
  decide

/-- C6 as amended: each canonical field gets the first source column (in
input order) whose lowercase name is in the field's alias list — with no
canonical-name fallback — so on the given columns only client, total and
tax are mapped; id_invoice, issuedDate and dueDate stay unmapped because
their spaced names miss the underscored aliases. -/
theorem mapping_first_match :
    (auto_map_columns
        ["Invoice No", "Vendor", "Amount", "GST", "Bill Date", "Due Date"] =
      [("id_invoice", none), ("client", some "Vendor"), ("total", some "Amount"),
        ("tax", some "GST"), ("issuedDate", none), ("dueDate", none)]) ∧
    (∀ (field : String) (aliases : List String) (cols : List String),
      (field, aliases) ∈ COLUMN_MAP →
        mappedTo (auto_map_columns cols) field =
          cols.find? (fun c => aliases.contains (pyLower c))) := by
  constructor
  · rfl
  · intro field aliases cols h
    simp only [COLUMN_MAP, List.mem_cons, List.not_mem_nil, or_false,
      Prod.mk.injEq] at h
    rcases h with ⟨rfl, rfl⟩ | ⟨rfl, rfl⟩ | ⟨rfl, rfl⟩ | ⟨rfl, rfl⟩ |
      ⟨rfl, rfl⟩ | ⟨rfl, rfl⟩ <;> rfl

/-- Witness for `mapping_first_match` at the field "tax" on a one-column
table. -/
theorem mapping_first_match_witness :
    (("tax", ["tax", "gst", "vat", "tax_amount"]) ∈ COLUMN_MAP) ∧
    mappedTo (auto_map_columns ["GST"]) "tax" =
      ["GST"].find? (fun c =>
        (["tax", "gst", "vat", "tax_amount"] : List String).contains (pyLower c)) :=
  ⟨by decide, mapping_first_match.2 "tax" ["tax", "gst", "vat", "tax_amount"]
    ["GST"] (by decide)⟩

theorem duplicate_flags_getD {α : Type} [DecidableEq α] (keys : List α)
    (i : Fin keys.length) :
    (duplicate_flags keys).getD i.val false =
      decide (2 ≤ keys.count (keys.get i)) := by
  unfold duplicate_flags
  rw [List.getD_eq_getElem?_getD, List.getElem?_map,
    List.getElem?_eq_getElem i.isLt]
  simp [List.get_eq_getElem]

theorem two_le_count_iff {α : Type} [DecidableEq α] (keys : List α)
    (i : Fin keys.length) :
    2 ≤ keys.count (keys.get i) ↔
      ∃ j : Fin keys.length, j ≠ i ∧ keys.get j = keys.get i := by
  rw [← List.duplicate_iff_two_le_count, List.duplicate_iff_exists_distinct_get]
  constructor
  · rintro ⟨n, m, hnm, hn, hm⟩
    by_cases hni : n = i
    · refine ⟨m, ?_, hm.symm⟩
      intro hmi
      rw [hmi, hni] at hnm
      exact lt_irrefl i hnm
    · exact ⟨n, hni, hn.symm⟩
  · rintro ⟨j, hji, hj⟩
    rcases lt_or_gt_of_ne hji with h | h
    · exact ⟨j, i, h, hj.symm, rfl⟩
    · exact ⟨i, j, h, rfl, hj.symm⟩

/-- C4: a record is flagged as duplicate exactly when some other record
has an equal composite key (exact equality), and any two records with
equal keys are both flagged — first occurrences included. -/
theorem duplicate_symmetry :
    (∀ (keys : List (Cell × Cell × Cell)) (i : Fin keys.length),
      (duplicate_flags keys).getD i.val false = true ↔
        ∃ j : Fin keys.length, j ≠ i ∧ keys.get j = keys.get i) ∧
    (∀ (keys : List (Cell × Cell × Cell)) (i j : Fin keys.length),
      i ≠ j → keys.get i = keys.get j →
        (duplicate_flags keys).getD i.val false = true ∧
        (duplicate_flags keys).getD j.val false = true) := by
  constructor
  · intro keys i
    rw [duplicate_flags_getD, decide_eq_true_iff]
    exact two_le_count_iff keys i
  · intro keys i j hne hij
    constructor
    · rw [duplicate_flags_getD, decide_eq_true_iff, two_le_count_iff]
      exact ⟨j, fun h => hne h.symm, hij.symm⟩
    · rw [duplicate_flags_getD, decide_eq_true_iff, two_le_count_iff]
      exact ⟨i, hne, hij⟩

/-- Witness for `duplicate_symmetry` on two records sharing the key
`("Acme", "A1", 500)`. -/
theorem duplicate_symmetry_witness :
    ((⟨0, by decide⟩ : Fin ([(Cell.str "Acme", Cell.str "A1", Cell.num 500),
        (Cell.str "Acme", Cell.str "A1", Cell.num 500)] :
        List (Cell × Cell × Cell)).length) ≠ ⟨1, by decide⟩) ∧
    (duplicate_flags [(Cell.str "Acme", Cell.str "A1", Cell.num 500),
      (Cell.str "Acme", Cell.str "A1", Cell.num 500)]).getD 0 false = true ∧
    (duplicate_flags [(Cell.str "Acme", Cell.str "A1", Cell.num 500),
      (Cell.str "Acme", Cell.str "A1", Cell.num 500)]).getD 1 false = true := by
  refine ⟨by decide, ?_⟩
  have h := duplicate_symmetry.2
    [(Cell.str "Acme", Cell.str "A1", Cell.num 500),
      (Cell.str "Acme", Cell.str "A1", Cell.num 500)]
    ⟨0, by decide⟩ ⟨1, by decide⟩ (by decide) (by decide)
  exact h

/-- C10: two records with a null client key field that agree on the
remaining key fields fall in one duplicate group and are both flagged
(the embedding's `Cell.null = Cell.null`, mirroring pandas `duplicated`
treating NaN keys as equal). -/
theorem null_keys_group (keys : List (Cell × Cell × Cell)) (inv tot : Cell)
    (i j : Fin keys.length) (hne : i ≠ j)
    (hi : keys.get i = (Cell.null, inv, tot))
    (hj : keys.get j = (Cell.null, inv, tot)) :
    (duplicate_flags keys).getD i.val false = true ∧
    (duplicate_flags keys).getD j.val false = true := by
  constructor
  · rw [duplicate_flags_getD, decide_eq_true_iff, two_le_count_iff]
    exact ⟨j, fun h => hne h.symm, hj.trans hi.symm⟩
  · rw [duplicate_flags_getD, decide_eq_true_iff, two_le_count_iff]
    exact ⟨i, hne, hi.trans hj.symm⟩

/-- Witness for `null_keys_group`: records 0 and 2 both have a null
client and key `(null, "B7", 250)`; a distinct record sits between
them. -/
theorem null_keys_group_witness :
    ((⟨0, by decide⟩ : Fin ([(Cell.null, Cell.str "B7", Cell.num 250),
        (Cell.str "Zeta", Cell.str "Z9", Cell.num 80),
        (Cell.null, Cell.str "B7", Cell.num 250)] :
        List (Cell × Cell × Cell)).length) ≠ ⟨2, by decide⟩) ∧
    (duplicate_flags [(Cell.null, Cell.str "B7", Cell.num 250),
      (Cell.str "Zeta", Cell.str "Z9", Cell.num 80),
      (Cell.null, Cell.str "B7", Cell.num 250)]).getD 0 false = true ∧
    (duplicate_flags [(Cell.null, Cell.str "B7", Cell.num 250),
      (Cell.str "Zeta", Cell.str "Z9", Cell.num 80),
      (Cell.null, Cell.str "B7", Cell.num 250)]).getD 2 false = true := by
  refine ⟨by decide, ?_⟩
  have h := null_keys_group
    [(Cell.null, Cell.str "B7", Cell.num 250),
      (Cell.str "Zeta", Cell.str "Z9", Cell.num 80),
      (Cell.null, Cell.str "B7", Cell.num 250)]
    (Cell.str "B7") (Cell.num 250) ⟨0, by decide⟩ ⟨2, by decide⟩
    (by decide) (by decide) (by decide)
  exact h

theorem count_true_map {α : Type} (l : List α) (p : α → Bool) :
    (l.map p).count true = l.countP p := by
  induction l with
  | nil => rfl
  | cons a l ih => simp [List.count_cons, List.countP_cons, ih]

theorem rankedIdx_perm (scores : List ℚ) :
    (rankedIdx scores).Perm (List.range scores.length) := by
  unfold rankedIdx
  have h1 : ((scores.enum.map (fun p => (p.2, p.1))).insertionSort scoreOrd).Perm
      (scores.enum.map (fun p => (p.2, p.1))) := List.perm_insertionSort _ _
  have h2 := h1.map Prod.snd
  rw [List.map_map] at h2
  have h3 : scores.enum.map (Prod.snd ∘ fun p : ℕ × ℚ => (p.2, p.1)) =
      List.range scores.length := by
    rw [show (Prod.snd ∘ fun p : ℕ × ℚ => (p.2, p.1)) = Prod.fst from rfl]
    exact List.enum_map_fst _
  rw [h3] at h2
  exact h2

theorem count_rankFlags (scores : List ℚ) (k : ℕ) (hk : k ≤ scores.length) :
    (rankFlags scores k).count true = k := by
  unfold rankFlags
  rw [count_true_map, List.countP_eq_length_filter]
  have hperm := rankedIdx_perm scores
  have hnd : (rankedIdx scores).Nodup := hperm.nodup_iff.mpr (List.nodup_range _)
  have hsub : ((rankedIdx scores).take k).Sublist (rankedIdx scores) :=
    List.take_sublist _ _
  have hndt : ((rankedIdx scores).take k).Nodup := hnd.sublist hsub
  have hmem : ∀ x, x ∈ (rankedIdx scores).take k → x ∈ List.range scores.length :=
    fun x hx => hperm.mem_iff.mp (hsub.subset hx)
  have hfil : ((List.range scores.length).filter
      (fun i => decide (i ∈ (rankedIdx scores).take k))).Perm
      ((rankedIdx scores).take k) := by
    apply (List.perm_ext_iff_of_nodup ((List.nodup_range _).filter _) hndt).mpr
    intro a
    simp only [List.mem_filter, decide_eq_true_iff, List.mem_range]
    constructor
    · rintro ⟨_, h⟩
      exact h
    · intro h
      exact ⟨List.mem_range.mp (hmem a h), h⟩
  rw [hfil.length_eq, List.length_take]
  have hlen : (rankedIdx scores).length = scores.length :=
    hperm.length_eq.trans (List.length_range _)
  rw [hlen]
  exact Nat.min_eq_left hk

theorem length_isoScores (seed : ℕ) (amounts : List ℚ) :
    (isoScores seed amounts).length = amounts.length := by
  unfold isoScores
  simp

/-- Counterexample to C3 at n = 1: the detector's n ≤ 1 edge case flags
nothing, while `round(contamination * n)` demands one flag for
contamination 3/5. -/
theorem anomaly_budget_fails_at_one :
    (scoreAnomalies [(5 : ℚ)] (3 / 5) 42).count true = 0 ∧
    (round ((3 : ℚ) / 5 * (([(5 : ℚ)] : List ℚ).length : ℚ))).toNat = 1 := by
  constructor
  · rfl
  · have h : (([(5 : ℚ)] : List ℚ).length : ℚ) = 1 := by norm_num
    rw [h]
    norm_num [round_eq]

/-- C3 as amended: for n ≥ 2 (and any contamination fraction 0 ≤ c ≤ 1)
exactly `round(c * n)` records are flagged regardless of the amount
distribution, and for n ≤ 1 no record is flagged; at n = 1 the edge case
overrides the round formula. -/
theorem anomaly_budget :
    (∀ (amounts : List ℚ) (c : ℚ) (seed : ℕ),
      0 ≤ c → c ≤ 1 → 2 ≤ amounts.length →
        (scoreAnomalies amounts c seed).count true =
          (round (c * (amounts.length : ℚ))).toNat) ∧
    (∀ (amounts : List ℚ) (c : ℚ) (seed : ℕ),
      amounts.length ≤ 1 →
        scoreAnomalies amounts c seed = List.replicate amounts.length false) := by
  constructor
  · intro amounts c seed h0 h1 h2
    unfold scoreAnomalies
    rw [if_neg (by omega)]
    have hk : (round (c * (amounts.length : ℚ))).toNat ≤
        (isoScores seed amounts).length := by
      rw [length_isoScores]
      have hle : c * (amounts.length : ℚ) ≤ (amounts.length : ℚ) := by
        calc c * (amounts.length : ℚ) ≤ 1 * (amounts.length : ℚ) :=
              mul_le_mul_of_nonneg_right h1 (by positivity)
          _ = (amounts.length : ℚ) := one_mul _
      have hr : round (c * (amounts.length : ℚ)) ≤ (amounts.length : ℤ) := by
        calc round (c * (amounts.length : ℚ)) ≤ round ((amounts.length : ℚ)) := by
              rw [round_eq, round_eq]
              exact Int.floor_le_floor (by linarith)
          _ = (amounts.length : ℤ) := round_natCast _
      calc (round (c * (amounts.length : ℚ))).toNat ≤
            ((amounts.length : ℤ)).toNat := Int.toNat_le_toNat hr
        _ = amounts.length := Int.toNat_natCast _
    exact count_rankFlags _ _ hk
  · intro amounts c seed h
    unfold scoreAnomalies
    rw [if_pos h]

/-- Witness for `anomaly_budget` on a two-element batch with
contamination 1/2. -/
theorem anomaly_budget_witness :
    (0 : ℚ) ≤ 1 / 2 ∧ (1 : ℚ) / 2 ≤ 1 ∧
    2 ≤ ([(1 : ℚ), 400] : List ℚ).length ∧
    (scoreAnomalies [(1 : ℚ), 400] (1 / 2) 42).count true =
      (round ((1 : ℚ) / 2 * (([(1 : ℚ), 400] : List ℚ).length : ℚ))).toNat ∧
    ([(1 : ℚ)] : List ℚ).length ≤ 1 ∧
    scoreAnomalies [(1 : ℚ)] (1 / 2) 42 =
      List.replicate ([(1 : ℚ)] : List ℚ).length false :=
  ⟨by norm_num, by norm_num, by decide,
    anomaly_budget.1 [(1 : ℚ), 400] (1 / 2) 42 (by norm_num) (by norm_num)
      (by decide),
    by decide, anomaly_budget.2 [(1 : ℚ)] (1 / 2) 42 (by decide)⟩

theorem find_rename_keep (n m : String) (v : List Cell) (hnm : m ≠ n) :
    ∀ t : Table, (t.map (fun c => if c.1 == n then (n, v) else c)).find?
      (fun c => c.1 == m) = t.find? (fun c => c.1 == m) := by
  intro t
  induction t with
  | nil => rfl
  | cons c t ih =>
    by_cases hc : c.1 = n
    · have h1 : (if c.1 == n then ((n, v) : String × List Cell) else c) = (n, v) := by
        rw [if_pos (by simpa using hc)]
      simp only [List.map_cons, h1]
      rw [List.find?_cons_of_neg _ (by simpa using Ne.symm hnm),
        List.find?_cons_of_neg _ (by simp [hc]; exact Ne.symm hnm)]
      exact ih
    · have h1 : (if c.1 == n then ((n, v) : String × List Cell) else c) = c := by
        rw [if_neg (by simpa using hc)]
      simp only [List.map_cons, h1]
      by_cases hm : c.1 = m
      · rw [List.find?_cons_of_pos _ (by simpa using hm),
          List.find?_cons_of_pos _ (by simpa using hm)]
      · rw [List.find?_cons_of_neg _ (by simpa using hm),
          List.find?_cons_of_neg _ (by simpa using hm)]
        exact ih

theorem getCol_setCol_ne (t : Table) (n m : String) (v : List Cell) (h : m ≠ n) :
    getCol (setCol t n v) m = getCol t m := by
  unfold setCol
  by_cases ha : t.any (fun c => c.1 == n)
  · rw [if_pos ha]
    unfold getCol
    rw [find_rename_keep n m v h t]
  · rw [if_neg ha]
    unfold getCol
    rw [List.find?_append]
    have h1 : (([(n, v)] : Table).find? (fun c => c.1 == m)) = none := by
      rw [List.find?_cons_of_neg _ (by simpa using Ne.symm h)]
      rfl
    rw [h1]
    cases t.find? (fun c => c.1 == m) <;> rfl

theorem find_rename_self (n : String) (v : List Cell) :
    ∀ t : Table, t.any (fun c => c.1 == n) = true →
      (t.map (fun c => if c.1 == n then (n, v) else c)).find?
        (fun c => c.1 == n) = some (n, v) := by
  intro t
  induction t with
  | nil =>
    intro h
    simp at h
  | cons c t ih =>
    intro h
    by_cases hc : c.1 = n
    · have h1 : (if c.1 == n then ((n, v) : String × List Cell) else c) = (n, v) := by
        rw [if_pos (by simpa using hc)]
      simp only [List.map_cons, h1]
      rw [List.find?_cons_of_pos _ (by simp)]
    · have h1 : (if c.1 == n then ((n, v) : String × List Cell) else c) = c := by
        rw [if_neg (by simpa using hc)]
      simp only [List.map_cons, h1]
      rw [List.find?_cons_of_neg _ (by simpa using hc)]
      apply ih
      simp only [List.any_cons, Bool.or_eq_true] at h
      rcases h with h | h
      · exact absurd (by simpa using h) hc
      · exact h

theorem getCol_setCol_self (t : Table) (n : String) (v : List Cell) :
    getCol (setCol t n v) n = some v := by
  unfold setCol
  by_cases ha : t.any (fun c => c.1 == n)
  · rw [if_pos ha]
    unfold getCol
    rw [find_rename_self n v t ha]
    rfl
  · rw [if_neg ha]
    unfold getCol
    rw [List.find?_append]
    have h1 : t.find? (fun c => c.1 == n) = none := by
      rw [List.find?_eq_none]
      intro x hx hpx
      exact ha (List.any_eq_true.mpr ⟨x, hx, hpx⟩)
    have h2 : (([(n, v)] : Table).find? (fun c => c.1 == n)) = some (n, v) := by
      rw [List.find?_cons_of_pos _ (by simp)]
    rw [h1, h2]
    rfl

theorem anomalyMap_eq (t : Table) (c : ℚ) (seed : ℕ) :
    Except.map (fun u => getCol u "anomaly") (anomalyStage c seed t) =
      match getCol t "total" with
      | none => Except.error ("KeyError: " ++ "total")
      | some tot =>
        match tot.mapM cellAmount with
        | Except.error e => Except.error e
        | Except.ok amounts =>
          Except.ok (some ((scoreAnomalies amounts c seed).map
            (fun b => Cell.num (if b then 1 else 0)))) := by
  unfold anomalyStage getColE
  cases hg : getCol t "total" with
  | none => rfl
  | some tot =>
    cases hm : tot.mapM cellAmount with
    | error e =>
      simp only [Bind.bind, Except.bind, hm, Except.map]
    | ok amounts =>
      simp only [Bind.bind, Except.bind, hm, pure, Except.pure, Except.map,
        getCol_setCol_self]

/-- C8: the anomaly flags are a function only of the `total` column (and
the contamination rate and seed passed to the detector): two tables with
identical `total` columns receive identical `anomaly` columns, whatever
their other fields hold. -/
theorem anomaly_depends_only_on_total (t1 t2 : Table) (c : ℚ) (seed : ℕ)
    (h : getCol t1 "total" = getCol t2 "total") :
    Except.map (fun u => getCol u "anomaly") (anomalyStage c seed t1) =
    Except.map (fun u => getCol u "anomaly") (anomalyStage c seed t2) := by
  rw [anomalyMap_eq, anomalyMap_eq, h]

/-- Witness for `anomaly_depends_only_on_total`: two tables agreeing only
on `total`. -/
theorem anomaly_depends_only_on_total_witness :
    getCol [("total", [Cell.num 5, Cell.num 6]),
        ("client", [Cell.str "a", Cell.str "b"])] "total" =
      getCol [("x", [Cell.null, Cell.null]),
        ("total", [Cell.num 5, Cell.num 6])] "total" ∧
    Except.map (fun u => getCol u "anomaly")
        (anomalyStage (1 / 10) 42 [("total", [Cell.num 5, Cell.num 6]),
          ("client", [Cell.str "a", Cell.str "b"])]) =
      Except.map (fun u => getCol u "anomaly")
        (anomalyStage (1 / 10) 42 [("x", [Cell.null, Cell.null]),
          ("total", [Cell.num 5, Cell.num 6])]) :=
  ⟨by decide, anomaly_depends_only_on_total _ _ (1 / 10) 42 (by decide)⟩

theorem mem_parseDates (t : Table) (name : String) (vals : List Cell)
    (h : (name, vals) ∈ parseDates t)
    (h1 : name ≠ "issuedDate") (h2 : name ≠ "dueDate") :
    (name, vals) ∈ t := by
  unfold parseDates at h
  rcases List.mem_map.mp h with ⟨c, hc, heq⟩
  by_cases hd : ((c.1 == "issuedDate") = true ∨ (c.1 == "dueDate") = true)
  · rw [if_pos hd] at heq
    have hn : c.1 = name := congrArg Prod.fst heq
    rcases hd with hd | hd
    · exact absurd (hn.symm.trans (by simpa using hd)) h1
    · exact absurd (hn.symm.trans (by simpa using hd)) h2
  · rw [if_neg hd] at heq
    rwa [heq] at hc

/-- C9 as amended: every non-date column of the normalized table is not
entirely null (the all-null drop guarantees it); date columns can be
entirely null in the output, because the drop runs before date parsing. -/
theorem nondate_columns_not_all_null (um : FieldMap) (raw : Table)
    (name : String) (vals : List Cell)
    (hmem : (name, vals) ∈ normalizeTable um raw)
    (h1 : name ≠ "issuedDate") (h2 : name ≠ "dueDate") :
    vals.all (fun v => v == Cell.null) = false := by
  unfold normalizeTable at hmem
  have hmem2 : (name, vals) ∈ dropAllNull (dedupeCols (renameCols um raw)) :=
    mem_parseDates _ _ _ hmem h1 h2
  unfold dropAllNull at hmem2
  have h3 := (List.mem_filter.mp hmem2).2
  simpa using h3

/-- Witness for `nondate_columns_not_all_null` on a one-column table. -/
theorem nondate_columns_not_all_null_witness :
    (("b", [Cell.num 1]) ∈
      normalizeTable ⟨"a", "a", "a", "a", "a", "a"⟩ [("b", [Cell.num 1])]) ∧
    ("b" : String) ≠ "issuedDate" ∧ ("b" : String) ≠ "dueDate" ∧
    ([Cell.num 1] : List Cell).all (fun v => v == Cell.null) = false :=
  ⟨by decide, by decide, by decide,
    nondate_columns_not_all_null ⟨"a", "a", "a", "a", "a", "a"⟩
      [("b", [Cell.num 1])] "b" [Cell.num 1] (by decide) (by decide) (by decide)⟩

/-- Counterexample to C9: a `dueDate` column whose single value fails to
parse becomes entirely null yet is RETAINED in the canonical table — the
all-null drop runs before date parsing, so the claim's "removed after
parsing" is false. -/
theorem date_parse_failure_column_retained :
    normalizeTable ⟨"d", "d", "d", "d", "d", "d"⟩ [("d", [Cell.str "garbage"])] =
      [("dueDate", [Cell.null])] ∧
    ([Cell.null] : List Cell).all (fun v => v == Cell.null) = true := by
  constructor
  · rfl
  · rfl

theorem duplicateStage_missing_id (t : Table)
    (hid : getCol t "id_invoice" = none) (hcl : getCol t "client" ≠ none) :
    duplicateStage t = Except.error ("KeyError: " ++ "id_invoice") := by
  obtain ⟨cl, hcl2⟩ := Option.ne_none_iff_exists'.mp hcl
  have e1 : getCol (setCol t "vendor_enc" (labelEncode cl)) "client" = some cl := by
    rw [getCol_setCol_ne _ _ _ _ (by decide)]
    exact hcl2
  have e2 : getCol (setCol t "vendor_enc" (labelEncode cl)) "id_invoice" = none := by
    rw [getCol_setCol_ne _ _ _ _ (by decide)]
    exact hid
  unfold duplicateStage getColE
  rw [hcl2]
  simp only [Bind.bind, Except.bind, e1, e2]

/-- C7 as amended: there is no schema check and no SchemaError.  When the
`id_invoice` column is missing after the confirmed mapping is applied,
normalization and validation still run to completion (the hypothesis
exhibits the computed `is_valid` table), and the batch then dies at the
duplicate-detection stage with a pandas KeyError — a partial pipeline run,
not an up-front fatal schema failure. -/
theorem no_schema_error (raw : Table) (um : FieldMap) (c : ℚ) (seed : ℕ)
    (today : ℤ) (t1 : Table)
    (hval : validationStage (normalizeTable um raw) = Except.ok t1)
    (hid : getCol t1 "id_invoice" = none)
    (hcl : getCol t1 "client" ≠ none) :
    pipeline um c seed today raw = Except.error ("KeyError: " ++ "id_invoice") := by
  unfold pipeline
  simp only [Bind.bind]
  rw [hval]
  simp only [Except.bind]
  rw [duplicateStage_missing_id t1 hid hcl]

/-- Witness for `no_schema_error`: two canonical fields confirmed onto
the same source column "A", so the rename dictionary keeps only the later
field and `id_invoice` vanishes. -/
theorem no_schema_error_witness :
    (validationStage (normalizeTable ⟨"A", "A", "B", "C", "D", "D"⟩
        [("A", [Cell.str "x"]), ("B", [Cell.num 500]),
          ("C", [Cell.num 90]), ("D", [Cell.str "2025-01-10"])]) =
      Except.ok [("client", [Cell.str "x"]), ("total", [Cell.num 500]),
        ("tax", [Cell.num 90]), ("dueDate", [Cell.date 753309]),
        ("is_valid", [Cell.bool true])]) ∧
    getCol [("client", [Cell.str "x"]), ("total", [Cell.num 500]),
        ("tax", [Cell.num 90]), ("dueDate", [Cell.date 753309]),
        ("is_valid", [Cell.bool true])] "id_invoice" = none ∧
    getCol [("client", [Cell.str "x"]), ("total", [Cell.num 500]),
        ("tax", [Cell.num 90]), ("dueDate", [Cell.date 753309]),
        ("is_valid", [Cell.bool true])] "client" ≠ none ∧
    pipeline ⟨"A", "A", "B", "C", "D", "D"⟩ (1 / 10) 42 0
        [("A", [Cell.str "x"]), ("B", [Cell.num 500]),
          ("C", [Cell.num 90]), ("D", [Cell.str "2025-01-10"])] =
      Except.error ("KeyError: " ++ "id_invoice") :=
  ⟨by with_unfolding_all rfl, by decide, by decide,
    no_schema_error _ ⟨"A", "A", "B", "C", "D", "D"⟩ (1 / 10) 42 0 _
      (by with_unfolding_all rfl) (by decide) (by decide)⟩

/-- Counterexample to C7: with `id_invoice` and `client` both confirmed
to column "A", the canonical `id_invoice` column is absent after
renaming, yet the run does not fail with a SchemaError before processing
rows: validation has already produced `is_valid = [true]` and the
eventual failure is a KeyError from the duplicate-detection stage. -/
theorem schema_error_never_raised :
    pipeline ⟨"A", "A", "B", "C", "D", "D"⟩ (1 / 10) 42 0
        [("A", [Cell.str "x"]), ("B", [Cell.num 500]),
          ("C", [Cell.num 90]), ("D", [Cell.str "2025-01-10"])] =
      Except.error "KeyError: id_invoice" ∧
    validationStage (normalizeTable ⟨"A", "A", "B", "C", "D", "D"⟩
        [("A", [Cell.str "x"]), ("B", [Cell.num 500]),
          ("C", [Cell.num 90]), ("D", [Cell.str "2025-01-10"])]) =
      Except.ok [("client", [Cell.str "x"]), ("total", [Cell.num 500]),
        ("tax", [Cell.num 90]), ("dueDate", [Cell.date 753309]),
        ("is_valid", [Cell.bool true])] := by
  constructor
  · rfl
  · with_unfolding_all rfl
